import Mathlib

/-!
Verification of the identity and credential authority of the
focus-training-academy repository, shallowly embedded in Lean.

The embedding follows the TypeScript sources:
* packages/auth-service/src/services/auth-service.ts (AuthService)
* the MFA service and the role/permission middleware
* packages/api-gateway/src/database/migrations/migration-runner.ts

Conventions of the embedding:
* the relational store is a record of association lists mirroring the
  users, roles, user_roles and user_mfa tables;
* the key-value cache is a function from keys to optional values with an
  absolute expiry instant, mirroring redis setex / get / del semantics;
* signed JWTs are modelled by their payloads: jsonwebtoken signing with a
  fixed secret is deterministic, so two tokens are byte-equal exactly when
  their payloads are equal;
* time is a natural number of seconds; the TOTP generator, the content
  hash and the database engine verdict on a SQL unit are parameters,
  since their internals are outside the program.
-/

/-- A row of the users table. -/
structure UserRow where
  id : String
  email : String
  oauthProvider : String
  oauthId : String
  organizationId : Option String
  isActive : Bool
  lastActiveAt : Nat
deriving DecidableEq

/-- A row of the roles table. -/
structure RoleRow where
  id : String
  name : String
deriving DecidableEq

/-- A row of the user_roles junction table. -/
structure UserRoleRow where
  userId : String
  roleId : String
deriving DecidableEq

/-- A row of the user_mfa table. -/
structure MfaRow where
  userId : String
  secret : String
  backupCodes : List String
  isEnabled : Bool
deriving DecidableEq

/-- The relational store consumed by the authority. -/
structure DB where
  users : List UserRow
  roles : List RoleRow
  userRoles : List UserRoleRow
  mfa : List MfaRow
deriving DecidableEq

/-- A permission, a resource and action pair. -/
structure Permission where
  resource : String
  action : String
deriving DecidableEq

/-- The session view produced by validateToken. -/
structure UserSession where
  userId : String
  email : String
  roles : List String
  permissions : List Permission
  organizationId : Option String
  expiresAt : Nat
deriving DecidableEq

/-- The payload of a signed access token. -/
structure JWTPayload where
  userId : String
  email : String
  roles : List String
  organizationId : Option String
  iat : Nat
  exp : Nat
deriving DecidableEq

/-- The payload of a signed refresh token.  jsonwebtoken signing is
deterministic, so the pair of user id and issued-at second determines the
token bytes. -/
structure RefreshTok where
  userId : String
  iat : Nat
deriving DecidableEq

/-- The credential pair returned by generateTokens. -/
structure TokenPair where
  accessToken : JWTPayload
  refreshToken : RefreshTok
  expiresIn : Nat
deriving DecidableEq

/-- A provider profile as delivered to handleOAuthCallback. -/
structure OAuthProfile where
  id : String
  email : String
  name : Option String
  provider : String
deriving DecidableEq

/-- The result of handleOAuthCallback. -/
structure AuthResult where
  user : UserRow
  tokens : TokenPair
  isNewUser : Bool
deriving DecidableEq

/-- The value returned by setupMFA (the QR data URL, a pure rendering of
the secret, is omitted). -/
structure MFASetup where
  secret : String
  backupCodes : List String
deriving DecidableEq

/-- Error categories raised by the services. -/
inductive AuthErr where
  | authenticationFailed
  | invalidRefreshToken
  | userNotFound
  | forbiddenNonAdmin
  | mfaNotSetUp
  | invalidMFAToken
deriving DecidableEq

/-- Errors surfaced by the storage layer before the services wrap them. -/
inductive StorageErr where
  | uniqueViolation
  | connectionFailure
deriving DecidableEq

/-- Outcome of the express middleware in auth-middleware.ts. -/
inductive MWOutcome where
  | allowed
  | unauthorized
  | forbidden
deriving DecidableEq

/-- Outcome of a routed MFA endpoint. -/
inductive EndpointResult (α : Type) where
  | ok (a : α)
  | unauthorized
  | forbidden
  | badRequest
deriving DecidableEq

/-! ## Key-value cache (redis) -/

/-- The refresh-token cache: keys to a token and an absolute expiry. -/
abbrev TokenCache := String → Option (RefreshTok × Nat)

/-- The replay-marker cache: keys to an absolute expiry of the marker. -/
abbrev MarkerCache := String → Option Nat

/-- redis setex on the token cache. -/
def cacheSet (c : TokenCache) (k : String) (v : RefreshTok) (expiry : Nat) : TokenCache :=
  fun k2 => if k2 = k then some (v, expiry) else c k2

/-- redis del on the token cache. -/
def cacheDel (c : TokenCache) (k : String) : TokenCache :=
  fun k2 => if k2 = k then none else c k2

/-- redis get on the token cache at an instant: an expired key is absent. -/
def cacheGet (c : TokenCache) (k : String) (now : Nat) : Option RefreshTok :=
  match c k with
  | some (v, expiry) => if now < expiry then some v else none
  | none => none

/-- redis get on the marker cache, as a presence test. -/
def markerGet (rc : MarkerCache) (k : String) (now : Nat) : Bool :=
  match rc k with
  | some expiry => now < expiry
  | none => false

/-- redis setex on the marker cache. -/
def markerSetex (rc : MarkerCache) (k : String) (ttl now : Nat) : MarkerCache :=
  fun k2 => if k2 = k then some (now + ttl) else rc k2

/-! ## Token service (AuthService) -/

/-- Access token lifetime: one hour, from generateTokens. -/
def accessTokenLifetime : Nat := 60 * 60

/-- Refresh token lifetime: seven days, from generateTokens. -/
def refreshTokenLifetime : Nat := 7 * 24 * 60 * 60

/-- The per-user cache key used for the current refresh token. -/
def refreshKey (uid : String) : String := "refresh_token:" ++ uid

/-- The roles aggregated for a user by the SQL join of user_roles and
roles, before deduplication. -/
def rolesAgg (db : DB) (uid : String) : List String :=
  (db.userRoles.filter (fun ur => ur.userId == uid)).filterMap
    (fun ur => (db.roles.find? (fun r => r.id == ur.roleId)).map (fun r => r.name))

/-- The distinct current role names of a user, as produced by the
validateToken query. -/
def rolesOf (db : DB) (uid : String) : List String :=
  (rolesAgg db uid).dedup

/-- AuthService.generateTokens: builds the access payload with an empty
roles claim, a refresh token bound to the user id, and stores the refresh
token under the per-user key with the seven-day TTL, overwriting any
prior value. -/
def generateTokens (u : UserRow) (now : Nat) (c : TokenCache) : TokenPair × TokenCache :=
  let payload : JWTPayload :=
    { userId := u.id, email := u.email, roles := [],
      organizationId := u.organizationId,
      iat := now, exp := now + accessTokenLifetime }
  let rtok : RefreshTok := { userId := u.id, iat := now }
  ({ accessToken := payload, refreshToken := rtok, expiresIn := accessTokenLifetime },
   cacheSet c (refreshKey u.id) rtok (now + refreshTokenLifetime))

/-- AuthService.getUserById. -/
def getUserById (db : DB) (uid : String) : Option UserRow :=
  db.users.find? (fun u => u.id == uid)

/-- AuthService.refreshToken: verify the presented token, require exact
equality with the per-user cache entry, then issue a brand-new pair.  Any
failure is normalised to invalidRefreshToken by the enclosing catch. -/
def refreshToken (db : DB) (c : TokenCache) (tok : RefreshTok) (now : Nat) :
    Except AuthErr (TokenPair × TokenCache) :=
  if now < tok.iat + refreshTokenLifetime then
    match cacheGet c (refreshKey tok.userId) now with
    | some stored =>
      if stored = tok then
        match getUserById db tok.userId with
        | some u => .ok (generateTokens u now c)
        | none => .error .invalidRefreshToken
      else .error .invalidRefreshToken
    | none => .error .invalidRefreshToken
  else .error .invalidRefreshToken

/-- AuthService.logout, restricted to its cache effect: the per-user
refresh entry is deleted. -/
def logout (c : TokenCache) (uid : String) : TokenCache :=
  cacheDel c (refreshKey uid)

/-- The operations that touch the refresh-token cache after an exchange:
a fresh issuance, a further refresh attempt, or a logout. -/
inductive CacheOp where
  | issue (u : UserRow) (t : Nat)
  | doRefresh (tok : RefreshTok) (t : Nat)
  | doLogout (uid : String)

/-- Effect of one operation on the cache (a failed refresh leaves it
unchanged). -/
def execOp (db : DB) (c : TokenCache) : CacheOp → TokenCache
  | .issue u t => (generateTokens u t c).2
  | .doRefresh tok t =>
    match refreshToken db c tok t with
    | .ok r => r.2
    | .error _ => c
  | .doLogout uid => logout c uid

/-- Effect of a sequence of operations on the cache. -/
def execTrace (db : DB) (c : TokenCache) (ops : List CacheOp) : TokenCache :=
  ops.foldl (execOp db) c

/-- An operation happening after the instant b: issuance and refresh
carry a later timestamp; logout is unconstrained. -/
def opAfter (b : Nat) : CacheOp → Prop
  | .issue _ t => b < t
  | .doRefresh _ t => b < t
  | .doLogout _ => True

/-! ## Session validator and access enforcer -/

/-- AuthService.validateToken: look up the active user by the id of the
verified payload, re-read the current role names from the store, and
build the session with an empty permission list. -/
def validateToken (db : DB) (pl : JWTPayload) : Option UserSession :=
  match db.users.find? (fun u => u.id == pl.userId && u.isActive) with
  | none => none
  | some u =>
    some { userId := u.id, email := u.email, roles := rolesOf db u.id,
           permissions := [], organizationId := u.organizationId,
           expiresAt := pl.exp }

/-- requireRole from auth-middleware.ts: pass when the session holds any
of the required roles. -/
def requireRole (required : List String) (user : Option UserSession) : MWOutcome :=
  match user with
  | none => .unauthorized
  | some s =>
    if required.any (fun r => s.roles.contains r) then .allowed else .forbidden

/-- requirePermission from auth-middleware.ts: pass when the session
holds the resource and action pair. -/
def requirePermission (resource action : String) (user : Option UserSession) : MWOutcome :=
  match user with
  | none => .unauthorized
  | some s =>
    if s.permissions.any (fun p => p.resource == resource && p.action == action)
    then .allowed else .forbidden

/-- The authenticateToken plus requireRole admin pipeline applied by the
MFA router to its mutating endpoints. -/
def adminGate (db : DB) (pl : JWTPayload) : Except MWOutcome UserSession :=
  match validateToken db pl with
  | none => .error .unauthorized
  | some s =>
    match requireRole ["admin"] (some s) with
    | .allowed => .ok s
    | .unauthorized => .error .unauthorized
    | .forbidden => .error .forbidden

/-! ## MFA authority (MFAService) -/

/-- One TOTP time step, thirty seconds. -/
def totpStepSeconds : Nat := 30

/-- The speakeasy drift window used throughout: two time steps. -/
def totpWindow : Nat := 2

/-- The time steps accepted at an instant under the drift window. -/
def totpSteps (now : Nat) : List Nat :=
  (List.range (2 * totpWindow + 1)).map (fun i => now / totpStepSeconds + i - totpWindow)

/-- speakeasy.totp.verify with window 2: the token matches the code of
some step within two steps of the current one.  The code generator totp
is a parameter of the embedding. -/
def totpVerify (totp : String → Nat → String) (secret tok : String) (now : Nat) : Bool :=
  (totpSteps now).any (fun s => tok == totp secret s)

/-- The replay-marker key for a user and presented code. -/
def mfaTokenKey (uid tok : String) : String :=
  "mfa_token:" ++ uid ++ ":" ++ tok

/-- The marker TTL written by verifyMFA: ninety seconds. -/
def mfaMarkerTTL : Nat := 90

/-- The ON CONFLICT upsert of setupMFA: replace the secret and codes and
clear the enabled flag, or insert a fresh row. -/
def upsertMfa (db : DB) (uid secret : String) (codes : List String) : DB :=
  if db.mfa.any (fun m => m.userId == uid) then
    { db with mfa := db.mfa.map (fun m =>
        if m.userId == uid then
          { m with secret := secret, backupCodes := codes, isEnabled := false }
        else m) }
  else
    { db with mfa := db.mfa ++ [⟨uid, secret, codes, false⟩] }

/-- Update of the stored backup codes of a user. -/
def setBackupCodes (db : DB) (uid : String) (codes : List String) : DB :=
  { db with mfa := db.mfa.map (fun m =>
      if m.userId == uid then { m with backupCodes := codes } else m) }

/-- Update of the enabled flag of a user's MFA record. -/
def setEnabled (db : DB) (uid : String) (b : Bool) : DB :=
  { db with mfa := db.mfa.map (fun m =>
      if m.userId == uid then { m with isEnabled := b } else m) }

/-- MFAService.setupMFA: requires an existing user whose aggregated roles
include admin, then upserts a not-yet-enabled record.  The random secret
and ten backup codes are parameters. -/
def setupMFA (db : DB) (uid secret : String) (codes : List String) :
    Except AuthErr (MFASetup × DB) :=
  match db.users.find? (fun u => u.id == uid) with
  | none => .error .userNotFound
  | some _ =>
    if (rolesAgg db uid).contains "admin" then
      .ok (⟨secret, codes⟩, upsertMfa db uid secret codes)
    else .error .forbiddenNonAdmin

/-- MFAService.enableMFA: requires a stored record and a code verifying
against the stored secret; flips the enabled flag. -/
def enableMFA (totp : String → Nat → String) (db : DB) (uid tok : String) (now : Nat) :
    Except AuthErr DB :=
  match db.mfa.find? (fun m => m.userId == uid) with
  | none => .error .mfaNotSetUp
  | some m =>
    if totpVerify totp m.secret tok now then .ok (setEnabled db uid true)
    else .error .invalidMFAToken

/-- ASCII uppercase of one character, the effect of toUpperCase on the
code alphabet in use (letters and digits). -/
def charUp (c : Char) : Char :=
  if c.isLower then Char.ofNat (c.toNat - 32) else c

/-- toUpperCase of the presented code. -/
def strUp (s : String) : String :=
  ⟨s.data.map charUp⟩

/-- MFAService.verifyMFA: no enabled record means false; a backup-code
match consumes the code; then the replay marker is consulted; then the
code is checked as a TOTP value and a ninety-second marker is written on
success.  Returns the verdict with the updated store and marker cache. -/
def verifyMFA (totp : String → Nat → String) (db : DB) (rc : MarkerCache)
    (uid tok : String) (now : Nat) : Bool × DB × MarkerCache :=
  match db.mfa.find? (fun m => m.userId == uid && m.isEnabled) with
  | none => (false, db, rc)
  | some m =>
    if m.backupCodes.contains (strUp tok) then
      (true, setBackupCodes db uid (m.backupCodes.filter (fun c => c != strUp tok)), rc)
    else if markerGet rc (mfaTokenKey uid tok) now then
      (false, db, rc)
    else if totpVerify totp m.secret tok now then
      (true, db, markerSetex rc (mfaTokenKey uid tok) mfaMarkerTTL now)
    else (false, db, rc)

/-- MFAService.disableMFA: requires verifyMFA to accept the code (keeping
its side effects), then clears the enabled flag. -/
def disableMFA (totp : String → Nat → String) (db : DB) (rc : MarkerCache)
    (uid tok : String) (now : Nat) : Except AuthErr (DB × MarkerCache) :=
  let r := verifyMFA totp db rc uid tok now
  if r.1 then .ok (setEnabled r.2.1 uid false, r.2.2) else .error .invalidMFAToken

/-- MFAService.regenerateBackupCodes: requires verifyMFA to accept the
code, then replaces the stored set with the ten fresh codes (a
parameter). -/
def regenerateBackupCodes (totp : String → Nat → String) (db : DB) (rc : MarkerCache)
    (uid tok : String) (now : Nat) (newCodes : List String) :
    Except AuthErr (List String × DB × MarkerCache) :=
  let r := verifyMFA totp db rc uid tok now
  if r.1 then .ok (newCodes, setBackupCodes r.2.1 uid newCodes, r.2.2)
  else .error .invalidMFAToken

/-- MFAService.getMFAStatus: the enabled flag and remaining backup-code
count of the user's record. -/
def getMFAStatus (db : DB) (uid : String) : Bool × Nat :=
  match db.mfa.find? (fun m => m.userId == uid) with
  | none => (false, 0)
  | some m => (m.isEnabled, m.backupCodes.length)

/-! ## Routed MFA endpoints (routes/mfa.ts)

Each mutating endpoint runs authenticateToken and requireRole admin
before its handler; the handler rejects an empty token, calls the
service for the session's own user id, and maps a service error to a
bad-request response. -/

/-- POST /setup behind the admin gate. -/
def mfaSetupRoute (db : DB) (pl : JWTPayload) (secret : String) (codes : List String) :
    EndpointResult MFASetup × DB :=
  match adminGate db pl with
  | .error .unauthorized => (.unauthorized, db)
  | .error _ => (.forbidden, db)
  | .ok s =>
    match setupMFA db s.userId secret codes with
    | .ok r => (.ok r.1, r.2)
    | .error _ => (.badRequest, db)

/-- POST /enable behind the admin gate. -/
def mfaEnableRoute (totp : String → Nat → String) (db : DB) (pl : JWTPayload)
    (tok : String) (now : Nat) : EndpointResult Bool × DB :=
  match adminGate db pl with
  | .error .unauthorized => (.unauthorized, db)
  | .error _ => (.forbidden, db)
  | .ok s =>
    if tok = "" then (.badRequest, db) else
    match enableMFA totp db s.userId tok now with
    | .ok db2 => (.ok true, db2)
    | .error _ => (.badRequest, db)

/-- POST /disable behind the admin gate. -/
def mfaDisableRoute (totp : String → Nat → String) (db : DB) (rc : MarkerCache)
    (pl : JWTPayload) (tok : String) (now : Nat) :
    EndpointResult Bool × DB × MarkerCache :=
  match adminGate db pl with
  | .error .unauthorized => (.unauthorized, db, rc)
  | .error _ => (.forbidden, db, rc)
  | .ok s =>
    if tok = "" then (.badRequest, db, rc) else
    match disableMFA totp db rc s.userId tok now with
    | .ok r => (.ok true, r.1, r.2)
    | .error _ => (.badRequest, db, rc)

/-- POST /backup-codes/regenerate behind the admin gate. -/
def mfaRegenRoute (totp : String → Nat → String) (db : DB) (rc : MarkerCache)
    (pl : JWTPayload) (tok : String) (now : Nat) (newCodes : List String) :
    EndpointResult (List String) × DB × MarkerCache :=
  match adminGate db pl with
  | .error .unauthorized => (.unauthorized, db, rc)
  | .error _ => (.forbidden, db, rc)
  | .ok s =>
    if tok = "" then (.badRequest, db, rc) else
    match regenerateBackupCodes totp db rc s.userId tok now newCodes with
    | .ok r => (.ok r.1, r.2.1, r.2.2)
    | .error _ => (.badRequest, db, rc)

/-! ## Federation (AuthService.handleOAuthCallback) -/

/-- Storage faults injected at the individual queries of the federation
flow; a some value makes that query raise. -/
structure Faults where
  onLookup : Option StorageErr
  onUpdate : Option StorageErr
  onInsert : Option StorageErr
  onProfile : Option StorageErr
deriving DecidableEq

/-- The fault-free federation run. -/
def noFaults : Faults := ⟨none, none, none, none⟩

/-- The lookup predicate on the unique provider identity pair. -/
def profileMatch (p : OAuthProfile) (u : UserRow) : Bool :=
  u.oauthProvider == p.provider && u.oauthId == p.id

/-- The user row inserted on first sight of an identity. -/
def mkUser (newUserId : String) (p : OAuthProfile) (now : Nat) : UserRow :=
  { id := newUserId, email := p.email, oauthProvider := p.provider,
    oauthId := p.id, organizationId := none, isActive := true,
    lastActiveAt := now }

/-- Append of the freshly inserted user row. -/
def pushUser (db : DB) (u : UserRow) : DB :=
  { db with users := db.users ++ [u] }

/-- The last-active touch of an existing user. -/
def touchUser (db : DB) (uid : String) (now : Nat) : DB :=
  { db with users := db.users.map (fun u =>
      if u.id == uid then { u with lastActiveAt := now } else u) }

/-- The body of handleOAuthCallback before its catch: look up the
identity; on a hit, touch last-active and issue tokens for the found
row; on a miss, insert the user and its profile row and issue tokens.
Each storage call may raise its injected fault. -/
def handleOAuthCallbackBody (db : DB) (c : TokenCache) (p : OAuthProfile)
    (newUserId : String) (now : Nat) (f : Faults) :
    Except StorageErr (AuthResult × DB × TokenCache) :=
  match f.onLookup with
  | some e => .error e
  | none =>
    match db.users.find? (profileMatch p) with
    | some u =>
      match f.onUpdate with
      | some e => .error e
      | none =>
        .ok (⟨u, (generateTokens u now c).1, false⟩,
             touchUser db u.id now, (generateTokens u now c).2)
    | none =>
      match f.onInsert with
      | some e => .error e
      | none =>
        match f.onProfile with
        | some e => .error e
        | none =>
          .ok (⟨mkUser newUserId p now, (generateTokens (mkUser newUserId p now) now c).1, true⟩,
               pushUser db (mkUser newUserId p now),
               (generateTokens (mkUser newUserId p now) now c).2)

/-- AuthService.handleOAuthCallback: the body under the catch that wraps
every raised error into the authentication-failed category. -/
def handleOAuthCallback (db : DB) (c : TokenCache) (p : OAuthProfile)
    (newUserId : String) (now : Nat) (f : Faults) :
    Except AuthErr (AuthResult × DB × TokenCache) :=
  match handleOAuthCallbackBody db c p newUserId now f with
  | .ok r => .ok r
  | .error _ => .error .authenticationFailed

/-! ## Migration runner (api-gateway) -/

/-- A migration unit loaded from the sql directory. -/
structure Migration where
  id : String
  filename : String
  sql : String
deriving DecidableEq

/-- The durable state the runner acts on: the schema_migrations rows as
id and checksum pairs, and the SQL statements committed so far. -/
structure MigState where
  applied : List (String × String)
  effects : List String
deriving DecidableEq

/-- Whether a unit is recorded as applied. -/
def isApplied (st : MigState) (m : Migration) : Bool :=
  st.applied.any (fun a => a.1 == m.id)

/-- Lexicographic comparison of character lists, the order the runtime
sort uses on filenames. -/
def charListLe : List Char → List Char → Bool
  | [], _ => true
  | _ :: _, [] => false
  | a :: as, b :: bs =>
    if a.toNat < b.toNat then true
    else if b.toNat < a.toNat then false
    else charListLe as bs

/-- Lexicographic comparison of two strings. -/
def strLe (a b : String) : Bool := charListLe a.data b.data

/-- Insertion into a filename-sorted list. -/
def insertByFilename (m : Migration) : List Migration → List Migration
  | [] => [m]
  | x :: xs =>
    if strLe m.filename x.filename then m :: x :: xs else x :: insertByFilename m xs

/-- The filename sort performed by loadMigrationFiles. -/
def sortByFilename (l : List Migration) : List Migration :=
  l.foldr insertByFilename []

/-- The pending units of a run. -/
def pendingOf (st : MigState) (files : List Migration) : List Migration :=
  (sortByFilename files).filter (fun m => !(isApplied st m))

/-- The in-transaction loop of runMigrations: execute each unit's SQL
and record its id with the content checksum, stopping at the first
failure.  The database engine verdict execSql and the checksum function
hash are parameters. -/
def runPending (hash : String → String) (execSql : String → Bool) :
    MigState → List Migration → MigState × Bool
  | st, [] => (st, true)
  | st, m :: rest =>
    if execSql m.sql then
      runPending hash execSql
        ⟨st.applied ++ [(m.id, hash m.sql)], st.effects ++ [m.sql]⟩ rest
    else (st, false)

/-- MigrationRunner.runMigrations of the api-gateway: the whole pending
list runs inside one transaction, so a thrown failure rolls the run back
to the pre-run state, while success commits the loop's result. -/
def runMigrations (hash : String → String) (execSql : String → Bool)
    (st : MigState) (files : List Migration) : MigState × Bool :=
  let r := runPending hash execSql st (pendingOf st files)
  if r.2 then (r.1, true) else (st, false)

/-! ## Concrete instances used by witnesses and counterexamples -/

/-- A concrete stand-in for the TOTP generator: the code of a secret at
a step is the secret joined to the step number. -/
def totpC : String → Nat → String := fun s n => s ++ "." ++ Nat.repr n

/-- The empty refresh-token cache. -/
def noTokens : TokenCache := fun _ => none

/-- The empty replay-marker cache. -/
def noMarkers : MarkerCache := fun _ => none

/-- A user with no roles. -/
def aliceU : UserRow := ⟨"a", "a@x.com", "google", "g1", none, true, 0⟩

/-- A store holding only that user. -/
def dbA : DB := ⟨[aliceU], [], [], []⟩

/-- The refresh token issued to that user at second zero. -/
def tokA : RefreshTok := ⟨"a", 0⟩

/-- The cache state right after that issuance. -/
def cacheA : TokenCache := (generateTokens aliceU 0 noTokens).2

/-- A user holding the admin role. -/
def adminRow : UserRow := ⟨"d", "d@x.com", "google", "g9", none, true, 0⟩

/-- A store in which that user holds admin. -/
def dbAdmin : DB := ⟨[adminRow], [⟨"r1", "admin"⟩], [⟨"d", "r1"⟩], []⟩

/-- An access payload for the admin user. -/
def plAdmin : JWTPayload := ⟨"d", "d@x.com", [], none, 0, 3600⟩

/-- The session validateToken builds for the admin user. -/
def sessAdmin : UserSession := ⟨"d", "d@x.com", ["admin"], [], none, 3600⟩

/-- An access payload naming a user id absent from every store below. -/
def plGhost : JWTPayload := ⟨"z", "z@x.com", [], none, 0, 3600⟩

/-- An enabled MFA record with no backup codes left. -/
def bobMfa : MfaRow := ⟨"b", "SEC", [], true⟩

/-- Its owner. -/
def bobRow : UserRow := ⟨"b", "b@x.com", "google", "g2", none, true, 0⟩

/-- A store with that enabled record. -/
def dbBob : DB := ⟨[bobRow], [], [], [bobMfa]⟩

/-- An enabled MFA record with one backup code. -/
def carolMfa : MfaRow := ⟨"c", "S7", ["ABC123"], true⟩

/-- Its owner. -/
def carolRow : UserRow := ⟨"c", "c@x.com", "google", "g3", none, true, 0⟩

/-- A store with that record. -/
def dbCarol : DB := ⟨[carolRow], [], [], [carolMfa]⟩

/-- A user without any role. -/
def ninaRow : UserRow := ⟨"n", "n@x.com", "google", "g4", none, true, 0⟩

/-- A store in which the admin role exists but is not assigned to her. -/
def dbNina : DB := ⟨[ninaRow], [⟨"r1", "admin"⟩], [], []⟩

/-- An access payload for that user. -/
def plNina : JWTPayload := ⟨"n", "n@x.com", [], none, 0, 3600⟩

/-- The session validateToken builds for her. -/
def sessNina : UserSession := ⟨"n", "n@x.com", [], [], none, 3600⟩

/-- A provider profile used in the federation scenarios. -/
def profE : OAuthProfile := ⟨"g1", "e@x.com", none, "google"⟩

/-- The empty store. -/
def dbEmpty : DB := ⟨[], [], [], []⟩

/-- A fault injection making the user insert raise a uniqueness
violation. -/
def fUnique : Faults := ⟨none, none, some .uniqueViolation, none⟩

/-- A fault injection making the identity lookup raise a connection
failure. -/
def fConn : Faults := ⟨some .connectionFailure, none, none, none⟩

/-- A concrete stand-in for the sha256 checksum: the content itself. -/
def hashId : String → String := fun s => s

/-- A database engine verdict failing exactly the unit whose SQL reads
BAD. -/
def execNotBad : String → Bool := fun s => s != "BAD"

/-- A first migration unit whose SQL succeeds. -/
def migA : Migration := ⟨"20240101_120000", "20240101_120000_create_users.sql", "CREATE A"⟩

/-- A second migration unit whose SQL fails. -/
def migB : Migration := ⟨"20240101_121000", "20240101_121000_create_orgs.sql", "BAD"⟩

/-- The pristine migration state. -/
def st0 : MigState := ⟨[], []⟩

/-- Every live entry of the cache at a key carries an issued-at after
the bound. -/
def cacheIatAbove (c : TokenCache) (k : String) (b : Nat) : Prop :=
  ∀ v e, c k = some (v, e) → b < v.iat

/-! ## Helper lemmas -/

/-- A map that does not change the verdict of the predicate commutes
with find?. -/
theorem find?_map_pred {α : Type} (l : List α) (g : α → α) (p : α → Bool)
    (h : ∀ x, p (g x) = p x) : (l.map g).find? p = (l.find? p).map g := by
  induction l with
  | nil => rfl
  | cons x xs ih =>
    by_cases hx : p x = true
    · rw [List.map_cons, List.find?_cons_of_pos _ (by rw [h x]; exact hx),
        List.find?_cons_of_pos _ hx, Option.map_some']
    · rw [List.map_cons, List.find?_cons_of_neg _ (by rw [h x]; exact hx),
        List.find?_cons_of_neg _ hx, ih]

/-- A find? hit also answers any stronger predicate the hit satisfies. -/
theorem find?_strengthen {α : Type} (l : List α) (p q : α → Bool) (m : α)
    (hq : l.find? q = some m) (hp : p m = true)
    (himp : ∀ x, p x = true → q x = true) : l.find? p = some m := by
  induction l with
  | nil => simp at hq
  | cons x xs ih =>
    by_cases hqx : q x = true
    · rw [List.find?_cons_of_pos _ hqx] at hq
      have hxm : x = m := by injection hq
      subst hxm
      rw [List.find?_cons_of_pos _ hp]
    · have hpx : ¬p x = true := fun hh => hqx (himp x hh)
      rw [List.find?_cons_of_neg _ hqx] at hq
      rw [List.find?_cons_of_neg _ hpx]
      exact ih hq

/-- Removing every copy of a value shortens a list by its count. -/
theorem filter_bne_length (l : List String) (a : String) :
    (l.filter (fun c => c != a)).length + l.count a = l.length := by
  induction l with
  | nil => rfl
  | cons x xs ih =>
    simp only [List.filter_cons, List.count_cons, List.length_cons, bne] at ih ⊢
    by_cases hx : x = a
    · subst hx
      simp only [beq_self_eq_true, Bool.not_true, Bool.false_eq_true, if_false, if_true]
      omega
    · have hb : (x == a) = false := beq_eq_false_iff_ne.mpr hx
      simp only [hb, Bool.not_false, Bool.false_eq_true, if_true, if_false, List.length_cons]
      omega

/-- Characterisation of a session produced by validateToken: the user
resolved, the roles are re-read from the store, and the permission list
is empty. -/
theorem validateToken_some {db : DB} {pl : JWTPayload} {s : UserSession}
    (h : validateToken db pl = some s) :
    s.roles = rolesOf db pl.userId ∧ s.permissions = [] ∧
    s.userId = pl.userId ∧ s.expiresAt = pl.exp := by
  unfold validateToken at h
  split at h
  · cases h
  · rename_i u hf
    injection h with h2
    have hu := List.find?_some hf
    have hid : u.id = pl.userId := beq_iff_eq.mp ((Bool.and_eq_true _ _).mp hu).1
    subst h2
    exact ⟨by rw [hid], rfl, hid, rfl⟩

/-- What a successful refresh implies: the presented token was the live
cache entry, the user resolved, and the result is a fresh issuance. -/
theorem refreshToken_ok {db : DB} {c : TokenCache} {tok : RefreshTok} {now : Nat}
    {r : TokenPair × TokenCache} (h : refreshToken db c tok now = .ok r) :
    cacheGet c (refreshKey tok.userId) now = some tok ∧
    ∃ u, getUserById db tok.userId = some u ∧ u.id = tok.userId ∧
      r = generateTokens u now c := by
  unfold refreshToken at h
  split at h
  · split at h
    · rename_i stored hg
      split at h
      · rename_i h2
        subst h2
        split at h
        · rename_i u hu
          injection h with h3
          have hid : u.id = stored.userId := by
            unfold getUserById at hu
            have hp := List.find?_some hu
            have hp2 : (u.id == stored.userId) = true := hp
            exact beq_iff_eq.mp hp2
          exact ⟨hg, u, hu, hid, h3.symm⟩
        · cases h
      · cases h
    · cases h
  · cases h

/-- One cache operation dated after the bound keeps the invariant that
the entry at a key was issued after the bound. -/
theorem execOp_keeps_bound (db : DB) (c : TokenCache) (op : CacheOp) (k : String) (b : Nat)
    (hc : cacheIatAbove c k b) (hop : opAfter b op) :
    cacheIatAbove (execOp db c op) k b := by
  cases op with
  | issue u t =>
    intro v e h
    simp only [execOp, generateTokens, cacheSet] at h
    by_cases hk : k = refreshKey u.id
    · rw [if_pos hk] at h
      injection h with h2
      have hv : v = { userId := u.id, iat := t } := by
        have := congrArg Prod.fst h2
        exact this.symm
      rw [hv]
      exact hop
    · rw [if_neg hk] at h
      exact hc v e h
  | doRefresh tok t =>
    intro v e h
    simp only [execOp] at h
    cases hr : refreshToken db c tok t with
    | error err => rw [hr] at h; exact hc v e h
    | ok r =>
      rw [hr] at h
      obtain ⟨_, u, _, _, hre⟩ := refreshToken_ok hr
      rw [hre] at h
      simp only [generateTokens, cacheSet] at h
      by_cases hk : k = refreshKey u.id
      · rw [if_pos hk] at h
        injection h with h2
        have hv : v = { userId := u.id, iat := t } := by
          have := congrArg Prod.fst h2
          exact this.symm
        rw [hv]
        exact hop
      · rw [if_neg hk] at h
        exact hc v e h
  | doLogout uid =>
    intro v e h
    simp only [execOp, logout, cacheDel] at h
    by_cases hk : k = refreshKey uid
    · rw [if_pos hk] at h; cases h
    · rw [if_neg hk] at h; exact hc v e h

/-- A whole trace of operations dated after the bound keeps the
invariant. -/
theorem execTrace_keeps_bound (db : DB) (ops : List CacheOp) (c : TokenCache)
    (k : String) (b : Nat) (hc : cacheIatAbove c k b)
    (hops : ∀ op ∈ ops, opAfter b op) :
    cacheIatAbove (execTrace db c ops) k b := by
  induction ops generalizing c with
  | nil => exact hc
  | cons op rest ih =>
    have h1 : cacheIatAbove (execOp db c op) k b :=
      execOp_keeps_bound db c op k b hc (hops op (List.mem_cons_self op rest))
    have h2 : ∀ o ∈ rest, opAfter b o := fun o ho => hops o (List.mem_cons_of_mem op ho)
    exact ih (execOp db c op) h1 h2

/-- The in-transaction migration loop only appends to the applied
records. -/
theorem runPending_applied_mono (hash : String → String) (execSql : String → Bool)
    (l : List Migration) (st : MigState) :
    ∀ a ∈ st.applied, a ∈ (runPending hash execSql st l).1.applied := by
  induction l generalizing st with
  | nil => intro a ha; exact ha
  | cons m rest ih =>
    intro a ha
    by_cases hm : execSql m.sql = true
    · simp only [runPending, hm, if_true]
      exact ih _ (a := a) (List.mem_append_left _ ha)
    · simp only [runPending, hm, if_false]
      exact ha

/-- A successful in-transaction loop records every unit it was given. -/
theorem runPending_ok_all (hash : String → String) (execSql : String → Bool)
    (l : List Migration) (st : MigState)
    (hok : (runPending hash execSql st l).2 = true) :
    ∀ m ∈ l, (m.id, hash m.sql) ∈ (runPending hash execSql st l).1.applied := by
  induction l generalizing st with
  | nil => intro m hm; cases hm
  | cons m rest ih =>
    intro m2 hm2
    by_cases hm : execSql m.sql = true
    · simp only [runPending, hm, if_true] at hok ⊢
      rcases List.mem_cons.mp hm2 with h | h
      · subst h
        exact runPending_applied_mono hash execSql rest _ _
          (List.mem_append_right _ (List.mem_singleton_self _))
      · exact ih _ hok m2 h
    · simp only [runPending, hm, if_false] at hok
      cases hok

/-- Removing every copy of a value leaves a list that no longer
contains it. -/
theorem filter_bne_not_contains (l : List String) (a : String) :
    (l.filter (fun c => c != a)).contains a = false := by
  induction l with
  | nil => rfl
  | cons x xs ih =>
    by_cases hx : x = a
    · subst hx
      simp only [List.filter_cons, bne_self_eq_false, Bool.false_eq_true, if_false]
      exact ih
    · have hb : (x == a) = false := beq_eq_false_iff_ne.mpr hx
      have hb2 : (a == x) = false := beq_eq_false_iff_ne.mpr (fun hh => hx hh.symm)
      simp only [List.filter_cons, bne, hb, Bool.not_false, if_true]
      simp only [List.contains_cons, hb2, Bool.false_or]
      exact ih

/-! ## Claims -/

/-- C4: validateToken re-reads the user's current role names from the
store: any session it returns carries exactly the roles read at
validation time for the payload's user id (never the roles embedded in
the token), and a user id that no longer resolves to an active user
yields no session — so revoking a role or deactivating the user takes
effect on the very next validate call. -/
theorem validate_rereads_current_roles (db : DB) (pl : JWTPayload) :
    (∀ s, validateToken db pl = some s →
      s.roles = rolesOf db pl.userId ∧ s.userId = pl.userId ∧ s.expiresAt = pl.exp) ∧
    (db.users.find? (fun u => u.id == pl.userId && u.isActive) = none →
      validateToken db pl = none) := by
  constructor
  · intro s hs
    obtain ⟨h1, _, h3, h4⟩ := validateToken_some hs
    exact ⟨h1, h3, h4⟩
  · intro hn
    unfold validateToken
    rw [hn]

/-- Witness for C4: the admin user's session carries the role list read
from the store, and a ghost user id validates to none. -/
theorem validate_rereads_current_roles_witness :
    (validateToken dbAdmin plAdmin = some sessAdmin ∧
      sessAdmin.roles = rolesOf dbAdmin plAdmin.userId) ∧
    validateToken dbAdmin plGhost = none := by
  refine ⟨⟨by decide, ?_⟩, ?_⟩
  · exact ((validate_rereads_current_roles dbAdmin plAdmin).1 sessAdmin (by decide)).1
  · exact (validate_rereads_current_roles dbAdmin plGhost).2 (by decide)

/-- C6: every session validateToken produces carries an empty permission
list, so requirePermission denies every resource and action pair to a
validated caller no matter which roles the caller holds. -/
theorem validated_session_never_passes_permission (db : DB) (pl : JWTPayload)
    (s : UserSession) (h : validateToken db pl = some s)
    (res act : String) :
    s.permissions = [] ∧ requirePermission res act (some s) = .forbidden := by
  have hp := (validateToken_some h).2.1
  refine ⟨hp, ?_⟩
  simp [requirePermission, hp]

/-- Witness for C6: the admin user's validated session is denied a
permission despite the admin role. -/
theorem validated_session_never_passes_permission_witness :
    sessAdmin.permissions = [] ∧
    requirePermission "users" "read" (some sessAdmin) = .forbidden :=
  validated_session_never_passes_permission dbAdmin plAdmin sessAdmin (by decide)
    "users" "read"

/-- C2: all four MFA mutations sit behind the admin role gate of the
router: a validated caller whose current role names do not include admin
gets forbidden from setup, enable, disable and regenerate, and neither
the store nor the marker cache is written. -/
theorem mfa_mutations_admin_gated
    (totp : String → Nat → String) (db : DB) (rc : MarkerCache) (pl : JWTPayload)
    (secret tok : String) (codes newCodes : List String) (now : Nat) (s : UserSession)
    (hs : validateToken db pl = some s)
    (hna : (rolesOf db pl.userId).contains "admin" = false) :
    mfaSetupRoute db pl secret codes = (.forbidden, db) ∧
    mfaEnableRoute totp db pl tok now = (.forbidden, db) ∧
    mfaDisableRoute totp db rc pl tok now = (.forbidden, db, rc) ∧
    mfaRegenRoute totp db rc pl tok now newCodes = (.forbidden, db, rc) := by
  have hroles := (validateToken_some hs).1
  have hrr : requireRole ["admin"] (some s) = .forbidden := by
    have hmem : "admin" ∉ s.roles := by
      rw [hroles]
      have h2 : (rolesOf db pl.userId).elem "admin" = false := hna
      rw [List.elem_eq_mem] at h2
      exact of_decide_eq_false h2
    simp [requireRole, hmem]
  have hgate : adminGate db pl = .error .forbidden := by
    unfold adminGate
    rw [hs]
    simp [hrr]
  refine ⟨?_, ?_, ?_, ?_⟩ <;>
    simp [mfaSetupRoute, mfaEnableRoute, mfaDisableRoute, mfaRegenRoute, hgate]

/-- Witness for C2: a validated user without the admin role is refused
all four mutations and the states are unchanged. -/
theorem mfa_mutations_admin_gated_witness :
    mfaSetupRoute dbNina plNina "s1" ["AAA111"] = (.forbidden, dbNina) ∧
    mfaEnableRoute totpC dbNina plNina "000000" 60 = (.forbidden, dbNina) ∧
    mfaDisableRoute totpC dbNina noMarkers plNina "000000" 60 = (.forbidden, dbNina, noMarkers) ∧
    mfaRegenRoute totpC dbNina noMarkers plNina "000000" 60 ["BBB222"] =
      (.forbidden, dbNina, noMarkers) :=
  mfa_mutations_admin_gated totpC dbNina noMarkers plNina "s1" "000000"
    ["AAA111"] ["BBB222"] 60 sessNina (by decide) (by decide)

/-- C5 (code bug): generateTokens builds the signed access payload with
the other claimed fields but a hard-coded empty roles claim, so for a
user currently holding the admin role the embedded roles differ from the
current role names at issuance time. -/
theorem access_token_roles_hardcoded_empty :
    (∀ (u : UserRow) (t : Nat) (c : TokenCache),
      (generateTokens u t c).1.accessToken =
        { userId := u.id, email := u.email, roles := [],
          organizationId := u.organizationId, iat := t, exp := t + 3600 }) ∧
    rolesOf dbAdmin "d" = ["admin"] ∧
    (generateTokens adminRow 1000 noTokens).1.accessToken.roles ≠ rolesOf dbAdmin "d" := by
  refine ⟨fun u t c => rfl, by decide, by decide⟩

/-- C3 (code bug): the ninety-second replay marker does not cover the
five-step validity span of the two-step drift window.  The code for step
four is first verified at second sixty (drift plus two), the marker
expires at second one hundred fifty, and the identical code verifies
again at second one hundred eighty, where the drift window still accepts
step four. -/
theorem totp_replay_marker_ttl_gap :
    (verifyMFA totpC dbBob noMarkers "b" "SEC.4" 60).1 = true ∧
    ((verifyMFA totpC dbBob noMarkers "b" "SEC.4" 60).2.2 (mfaTokenKey "b" "SEC.4")
      = some 150) ∧
    (verifyMFA totpC
      (verifyMFA totpC dbBob noMarkers "b" "SEC.4" 60).2.1
      (verifyMFA totpC dbBob noMarkers "b" "SEC.4" 60).2.2
      "b" "SEC.4" 180).1 = true := by
  refine ⟨by decide, ?_, by decide⟩
  rfl

/-- C7: a presented code matching a stored backup code of an enabled
record verifies and consumes exactly that code: the remaining count
reported by status drops by exactly one, the matched value is removed
while every other stored code is kept, and a second presentation of the
same code (no longer stored, and not a currently valid one-time code)
returns false. -/
theorem backup_code_single_use
    (totp : String → Nat → String) (db : DB) (rc : MarkerCache)
    (uid tok : String) (t1 t2 : Nat) (m : MfaRow)
    (hfind : db.mfa.find? (fun r => r.userId == uid) = some m)
    (hen : m.isEnabled = true)
    (hmem : m.backupCodes.contains (strUp tok) = true)
    (hcount : m.backupCodes.count (strUp tok) = 1)
    (hnot : totpVerify totp m.secret tok t2 = false) :
    (verifyMFA totp db rc uid tok t1).1 = true ∧
    (getMFAStatus (verifyMFA totp db rc uid tok t1).2.1 uid).2 + 1 =
      (getMFAStatus db uid).2 ∧
    (verifyMFA totp (verifyMFA totp db rc uid tok t1).2.1
        (verifyMFA totp db rc uid tok t1).2.2 uid tok t2).1 = false ∧
    (∃ m2, (verifyMFA totp db rc uid tok t1).2.1.mfa.find?
        (fun r => r.userId == uid) = some m2 ∧
      m2.backupCodes.contains (strUp tok) = false ∧
      ∀ c2, c2 ≠ strUp tok → (c2 ∈ m2.backupCodes ↔ c2 ∈ m.backupCodes)) := by
  have hbeq := List.find?_some hfind
  have hmu : (m.userId == uid) = true := hbeq
  have hmemP : strUp tok ∈ m.backupCodes := by
    have h2 : m.backupCodes.elem (strUp tok) = true := hmem
    rw [List.elem_eq_mem] at h2
    exact of_decide_eq_true h2
  have hfindP : db.mfa.find? (fun r => r.userId == uid && r.isEnabled) = some m := by
    apply find?_strengthen db.mfa (fun r => r.userId == uid && r.isEnabled)
      (fun r => r.userId == uid) m hfind
    · exact (Bool.and_eq_true _ _).mpr ⟨hmu, hen⟩
    · intro x hx
      exact ((Bool.and_eq_true _ _).mp hx).1
  have hv1 : verifyMFA totp db rc uid tok t1 =
      (true, setBackupCodes db uid (m.backupCodes.filter (fun c => c != strUp tok)), rc) := by
    unfold verifyMFA
    rw [hfindP]
    simp [hmemP]
  set codes2 := m.backupCodes.filter (fun c => c != strUp tok) with hcodes2
  have hfind2 : (setBackupCodes db uid codes2).mfa.find? (fun r => r.userId == uid)
      = some { m with backupCodes := codes2 } := by
    show (db.mfa.map (fun x => if x.userId == uid then { x with backupCodes := codes2 } else x)).find?
        (fun r => r.userId == uid) = some { m with backupCodes := codes2 }
    rw [find?_map_pred db.mfa _ _ (fun x => by split <;> rfl), hfind, Option.map_some']
    simp [hmu]
  have hfindP2 : (setBackupCodes db uid codes2).mfa.find?
      (fun r => r.userId == uid && r.isEnabled) = some { m with backupCodes := codes2 } := by
    show (db.mfa.map (fun x => if x.userId == uid then { x with backupCodes := codes2 } else x)).find?
        (fun r => r.userId == uid && r.isEnabled) = some { m with backupCodes := codes2 }
    rw [find?_map_pred db.mfa _ _ (fun x => by split <;> rfl), hfindP, Option.map_some']
    simp [hmu]
  have hc2 : codes2.contains (strUp tok) = false := filter_bne_not_contains _ _
  have hc2mem : strUp tok ∉ codes2 := by
    rw [hcodes2]
    intro hin
    have hbn := (List.mem_filter.mp hin).2
    simp at hbn
  have hstatus : (getMFAStatus (setBackupCodes db uid codes2) uid).2 + 1 =
      (getMFAStatus db uid).2 := by
    simp only [getMFAStatus, hfind2, hfind]
    show codes2.length + 1 = m.backupCodes.length
    have hlen := filter_bne_length m.backupCodes (strUp tok)
    rw [hcount, ← hcodes2] at hlen
    omega
  have hv2 : (verifyMFA totp (setBackupCodes db uid codes2) rc uid tok t2).1 = false := by
    unfold verifyMFA
    rw [hfindP2]
    cases hmg : markerGet rc (mfaTokenKey uid tok) t2
    · simp [hc2mem, hmg, hnot]
    · simp [hc2mem, hmg]
  refine ⟨?_, ?_, ?_, ?_⟩
  · rw [hv1]
  · rw [hv1]
    exact hstatus
  · rw [hv1]
    exact hv2
  · rw [hv1]
    refine ⟨{ m with backupCodes := codes2 }, hfind2, hc2, ?_⟩
    intro c2 hc
    simp [hcodes2, List.mem_filter, bne_iff_ne, hc]

/-- Witness for C7: the stored backup code ABC123 of an enabled record
verifies once when presented as abc123, drops the remaining count from
one to zero, and fails on the second presentation. -/
theorem backup_code_single_use_witness :
    (verifyMFA totpC dbCarol noMarkers "c" "abc123" 60).1 = true ∧
    (getMFAStatus (verifyMFA totpC dbCarol noMarkers "c" "abc123" 60).2.1 "c").2 + 1 =
      (getMFAStatus dbCarol "c").2 ∧
    (verifyMFA totpC (verifyMFA totpC dbCarol noMarkers "c" "abc123" 60).2.1
        (verifyMFA totpC dbCarol noMarkers "c" "abc123" 60).2.2 "c" "abc123" 90).1 = false := by
  have h := backup_code_single_use totpC dbCarol noMarkers "c" "abc123" 60 90 carolMfa
    (by decide) rfl (by decide) (by decide) (by decide)
  exact ⟨h.1, h.2.1, h.2.2.1⟩

/-- C1 counterexample: an exchange performed in the same second as the
old token's issuance stores a byte-identical token (signing is
deterministic and the issued-at has second granularity), so a subsequent
refresh presenting the old token is accepted again instead of being
rejected. -/
theorem refresh_replay_same_second :
    refreshToken dbA cacheA tokA 0 = .ok (generateTokens aliceU 0 cacheA) ∧
    refreshToken dbA (generateTokens aliceU 0 cacheA).2 tokA 5 =
      .ok (generateTokens aliceU 5 (generateTokens aliceU 0 cacheA).2) :=
  ⟨rfl, rfl⟩

/-- C1 amended: once a refresh call performed at a strictly later second
than the presented token's issued-at has exchanged it, any subsequent
refresh presenting the old token is rejected, across any further
issuance, refresh or logout activity dated after that issued-at second;
moreover at any state at most one token value per user can be accepted
by refresh, since acceptance requires byte-exact equality with the
single per-user cache entry. -/
theorem refresh_rotation_after_exchange
    (db db2 : DB) (c : TokenCache) (tok : RefreshTok) (t1 : Nat)
    (r : TokenPair × TokenCache)
    (hok : refreshToken db c tok t1 = .ok r)
    (hlater : tok.iat < t1)
    (ops : List CacheOp) (hops : ∀ op ∈ ops, opAfter tok.iat op) (t2 : Nat) :
    refreshToken db2 (execTrace db2 r.2 ops) tok t2 = .error .invalidRefreshToken ∧
    (∀ (c3 : TokenCache) (t3 : Nat) (ta tb : RefreshTok) (ra rb : TokenPair × TokenCache),
      ta.userId = tb.userId →
      refreshToken db c3 ta t3 = .ok ra →
      refreshToken db c3 tb t3 = .ok rb → ta = tb) := by
  constructor
  · obtain ⟨hcg, u, hu, huid, hre⟩ := refreshToken_ok hok
    have hbase : cacheIatAbove r.2 (refreshKey tok.userId) tok.iat := by
      intro v e h
      rw [hre] at h
      simp only [generateTokens, cacheSet] at h
      rw [huid, if_pos rfl] at h
      injection h with h2
      have hv : v = { userId := tok.userId, iat := t1 } := (congrArg Prod.fst h2).symm
      rw [hv]
      exact hlater
    have hinv := execTrace_keeps_bound db2 ops r.2 (refreshKey tok.userId) tok.iat hbase hops
    unfold refreshToken
    by_cases hexp : t2 < tok.iat + refreshTokenLifetime
    · rw [if_pos hexp]
      cases hg2 : cacheGet (execTrace db2 r.2 ops) (refreshKey tok.userId) t2 with
      | none => rfl
      | some stored =>
        have hst : tok.iat < stored.iat := by
          unfold cacheGet at hg2
          cases hcf : execTrace db2 r.2 ops (refreshKey tok.userId) with
          | none => rw [hcf] at hg2; cases hg2
          | some ve =>
            obtain ⟨v0, e0⟩ := ve
            rw [hcf] at hg2
            have hg3 : (if t2 < e0 then some v0 else none) = some stored := hg2
            by_cases ht : t2 < e0
            · rw [if_pos ht] at hg3
              injection hg3 with h3
              rw [← h3]
              exact hinv v0 e0 hcf
            · rw [if_neg ht] at hg3; cases hg3
        have hne : ¬ stored = tok := by
          intro hh
          rw [hh] at hst
          exact Nat.lt_irrefl _ hst
        simp [hne]
    · rw [if_neg hexp]
  · intro c3 t3 ta tb ra rb hid ha hb
    obtain ⟨hga, -⟩ := refreshToken_ok ha
    obtain ⟨hgb, -⟩ := refreshToken_ok hb
    rw [hid] at hga
    rw [hga] at hgb
    injection hgb

/-- Witness for C1: the token issued at second zero, exchanged at second
five, is rejected when presented again at second ten. -/
theorem refresh_rotation_after_exchange_witness :
    refreshToken dbA (execTrace dbA (generateTokens aliceU 5 cacheA).2 []) tokA 10 =
      .error .invalidRefreshToken :=
  (refresh_rotation_after_exchange dbA dbA cacheA tokA 5 (generateTokens aliceU 5 cacheA)
    rfl (by decide) [] (fun op hop => absurd hop (List.not_mem_nil op)) 10).1

/-- C8 counterexample: a uniqueness violation raised by the user insert
is not treated as a concurrent creation; the flow surfaces the
authentication-failed category instead of falling back to a lookup and
returning the existing user. -/
theorem oauth_unique_violation_no_fallback :
    handleOAuthCallback dbEmpty noTokens profE "u2" 3 fUnique =
      .error .authenticationFailed := rfl

/-- C8 amended: every storage fault of the federation flow, the
insert-time uniqueness violation included, surfaces as the
authentication-failed category — never as a raw storage error and never
through a fallback lookup. -/
theorem oauth_faults_normalized (db : DB) (c : TokenCache) (p : OAuthProfile)
    (nid : String) (now : Nat) (f : Faults) :
    (∀ e, handleOAuthCallback db c p nid now f = .error e → e = .authenticationFailed) ∧
    (f.onLookup = none → db.users.find? (profileMatch p) = none →
      f.onInsert = some .uniqueViolation →
      handleOAuthCallback db c p nid now f = .error .authenticationFailed) := by
  constructor
  · intro e he
    unfold handleOAuthCallback at he
    cases hb : handleOAuthCallbackBody db c p nid now f with
    | ok r => rw [hb] at he; cases he
    | error err =>
      rw [hb] at he
      have he2 : (Except.error AuthErr.authenticationFailed :
          Except AuthErr (AuthResult × DB × TokenCache)) = .error e := he
      injection he2 with h2
      exact h2.symm
  · intro h1 h2 h3
    unfold handleOAuthCallback handleOAuthCallbackBody
    rw [h1, h2, h3]

/-- Witness for C8: a lookup fault is normalised, and the concrete
uniqueness-violation run fails with the authentication-failed
category. -/
theorem oauth_faults_normalized_witness :
    AuthErr.authenticationFailed = .authenticationFailed ∧
    handleOAuthCallback dbEmpty noTokens profE "u3" 4 fUnique =
      .error .authenticationFailed :=
  ⟨(oauth_faults_normalized dbEmpty noTokens profE "u3" 4 fConn).1
      .authenticationFailed rfl,
   (oauth_faults_normalized dbEmpty noTokens profE "u3" 4 fUnique).2 rfl rfl rfl⟩

/-- C9: federation is idempotent for an identity seen twice: the first
fault-free call creates the user and reports it new; the second call
returns the same user row with the new-user flag cleared, only touches
the last-active timestamp, and adds no second row. -/
theorem federation_idempotent (db : DB) (c c2 : TokenCache) (p : OAuthProfile)
    (nid nid2 : String) (t1 t2 : Nat)
    (h1 : db.users.find? (profileMatch p) = none) :
    handleOAuthCallback db c p nid t1 noFaults =
      .ok (⟨mkUser nid p t1, (generateTokens (mkUser nid p t1) t1 c).1, true⟩,
           pushUser db (mkUser nid p t1), (generateTokens (mkUser nid p t1) t1 c).2) ∧
    handleOAuthCallback (pushUser db (mkUser nid p t1)) c2 p nid2 t2 noFaults =
      .ok (⟨mkUser nid p t1, (generateTokens (mkUser nid p t1) t2 c2).1, false⟩,
           touchUser (pushUser db (mkUser nid p t1)) (mkUser nid p t1).id t2,
           (generateTokens (mkUser nid p t1) t2 c2).2) ∧
    (touchUser (pushUser db (mkUser nid p t1)) (mkUser nid p t1).id t2).users.length =
      db.users.length + 1 := by
  have hfind2 : (pushUser db (mkUser nid p t1)).users.find? (profileMatch p) =
      some (mkUser nid p t1) := by
    show (db.users ++ [mkUser nid p t1]).find? (profileMatch p) = some (mkUser nid p t1)
    rw [List.find?_append, h1]
    simp [profileMatch, mkUser]
  refine ⟨?_, ?_, ?_⟩
  · unfold handleOAuthCallback handleOAuthCallbackBody
    rw [h1]
    rfl
  · unfold handleOAuthCallback handleOAuthCallbackBody
    rw [hfind2]
    rfl
  · simp [touchUser, pushUser]

/-- Witness for C9: the identity seen first on the empty store is
created once and found on the second call with the same row. -/
theorem federation_idempotent_witness :
    handleOAuthCallback dbEmpty noTokens profE "u1" 1 noFaults =
      .ok (⟨mkUser "u1" profE 1, (generateTokens (mkUser "u1" profE 1) 1 noTokens).1, true⟩,
           pushUser dbEmpty (mkUser "u1" profE 1),
           (generateTokens (mkUser "u1" profE 1) 1 noTokens).2) ∧
    handleOAuthCallback (pushUser dbEmpty (mkUser "u1" profE 1)) noTokens profE "u9" 2 noFaults =
      .ok (⟨mkUser "u1" profE 1, (generateTokens (mkUser "u1" profE 1) 2 noTokens).1, false⟩,
           touchUser (pushUser dbEmpty (mkUser "u1" profE 1)) (mkUser "u1" profE 1).id 2,
           (generateTokens (mkUser "u1" profE 1) 2 noTokens).2) ∧
    (touchUser (pushUser dbEmpty (mkUser "u1" profE 1)) (mkUser "u1" profE 1).id 2).users.length =
      dbEmpty.users.length + 1 :=
  federation_idempotent dbEmpty noTokens noTokens profE "u1" "u9" 1 2 rfl

/-- C10 counterexample: the api-gateway runner executes the whole
pending list inside one shared transaction.  With a first unit that
succeeds and a second that fails, the run aborts and the first unit of
the same run is rolled back and left unrecorded, instead of remaining
applied in its own committed transaction. -/
theorem migration_failure_rolls_back_whole_run :
    (runMigrations hashId execNotBad st0 [migA, migB]).2 = false ∧
    (runMigrations hashId execNotBad st0 [migA, migB]).1 = st0 ∧
    isApplied (runMigrations hashId execNotBad st0 [migA, migB]).1 migA = false := by
  refine ⟨?_, ?_, ?_⟩ <;> decide

/-- C10 amended: the runner executes the pending units of a run, in
filename order, inside one transaction shared by the whole run: each
unit's SQL runs together with the recording of its identifier and
checksum, a mid-run failure aborts the run and rolls the entire run —
earlier units of the same run included — back to the pre-run state,
while units recorded by previous runs always remain applied, and a fully
successful run records every pending unit. -/
theorem migration_run_atomic (hash : String → String) (execSql : String → Bool)
    (st : MigState) (files : List Migration) :
    ((runMigrations hash execSql st files).2 = false →
      (runMigrations hash execSql st files).1 = st) ∧
    (∀ a ∈ st.applied, a ∈ (runMigrations hash execSql st files).1.applied) ∧
    ((runMigrations hash execSql st files).2 = true →
      ∀ m ∈ pendingOf st files,
        (m.id, hash m.sql) ∈ (runMigrations hash execSql st files).1.applied) := by
  by_cases hr : (runPending hash execSql st (pendingOf st files)).2 = true
  · refine ⟨?_, ?_, ?_⟩
    · intro hf
      rw [runMigrations, if_pos hr] at hf
      cases hf
    · intro a ha
      rw [runMigrations, if_pos hr]
      exact runPending_applied_mono hash execSql (pendingOf st files) st a ha
    · intro _ m hm
      rw [runMigrations, if_pos hr]
      exact runPending_ok_all hash execSql (pendingOf st files) st hr m hm
  · refine ⟨?_, ?_, ?_⟩
    · intro _
      rw [runMigrations, if_neg hr]
    · intro a ha
      rw [runMigrations, if_neg hr]
      exact ha
    · intro ht
      rw [runMigrations, if_neg hr] at ht
      cases ht

/-- Witness for C10: the failing two-unit run answers with the pristine
pre-run state, and a fully successful single-unit run records the unit
with its checksum. -/
theorem migration_run_atomic_witness :
    (runMigrations hashId execNotBad st0 [migA, migB]).1 = st0 ∧
    ((migA.id, hashId migA.sql) ∈ (runMigrations hashId execNotBad st0 [migA]).1.applied) := by
  constructor
  · exact (migration_run_atomic hashId execNotBad st0 [migA, migB]).1 (by decide)
  · exact (migration_run_atomic hashId execNotBad st0 [migA]).2.2 (by decide) migA (by decide)
